import Mathlib

/-!
Shallow embedding of the Audit & Reconciliation Engine of the repository
(`src/tools/bank-reconciliation.ts`: the `BankReconciliationTools` matcher,
the `ConfigAuditTools` audit engine, and the `FinancialTools` aging
calculators), together with proofs settling the frozen claims about it.

Modelling conventions:
* monetary amounts are integers in the smallest currency unit (paise),
  so the JS amount `1000.50` is the integer `100050` and the matcher's
  amount tolerance `1` (major unit) is `100`;
* dates are integer day numbers (the TS code only ever uses whole-day
  differences of `Date` values);
* JS string truthiness is "the string is nonempty";
* display-only fields of issues (title, description, currentValue,
  suggestedValue, affectedItems, fixAction payloads) are omitted: no claim
  mentions them and they are derived data carried alongside each issue.
-/

/-! ### JS string primitives -/

/-- `String.prototype.toLowerCase` (ASCII, which is all the code feeds it). -/
def lowerStr (s : String) : String :=
  ⟨s.data.map Char.toLower⟩

/-- `String.prototype.toUpperCase` (ASCII). -/
def upperStr (s : String) : String :=
  ⟨s.data.map Char.toUpper⟩

/-- Does `l` start with the pattern `pat`? -/
def startsWithList : List Char → List Char → Bool
  | [], _ => true
  | _ :: _, [] => false
  | p :: ps, c :: cs => p = c && startsWithList ps cs

/-- Does `hay` contain `needle` as a contiguous run? -/
def hasSubstring : List Char → List Char → Bool
  | [], needle => needle.isEmpty
  | c :: cs, needle => startsWithList needle (c :: cs) || hasSubstring cs needle

/-- `hay.includes(needle)` of JS. -/
def strIncludes (hay needle : String) : Bool :=
  hasSubstring hay.data needle.data

/-- Is `c` kept by the normalisation regex `[a-z0-9]` (applied after lowering)? -/
def isLowerAlnum (c : Char) : Bool :=
  ('a' ≤ c && c ≤ 'z') || ('0' ≤ c && c ≤ '9')

/-- `name.toLowerCase().replace(/[^a-z0-9]/g, '')` used before duplicate detection. -/
def normalizeName (s : String) : String :=
  ⟨(lowerStr s).data.filter isLowerAlnum⟩

/-! ### NameSimilarity: `levenshteinDistance` and `isSimilarName` -/

/-- Edit distance on character lists. This is the recurrence filled into the
`dp` table of `levenshteinDistance` (`dp[i][0] = i`, `dp[0][j] = j`, and
`dp[i][j] = dp[i-1][j-1]` on equal characters, else
`1 + min (dp[i-1][j]) (dp[i][j-1]) (dp[i-1][j-1])`), expressed recursively. -/
def levAux : List Char → List Char → Nat
  | [], bs => bs.length
  | a :: as, [] => (a :: as).length
  | a :: as, b :: bs =>
    if a = b then levAux as bs
    else 1 + min (levAux as (b :: bs)) (min (levAux (a :: as) bs) (levAux as bs))

/-- `levenshteinDistance(s1, s2)` of the source. -/
def levenshteinDistance (s1 s2 : String) : Nat :=
  levAux s1.data s2.data

/-- `isSimilarName(name1, name2)` of the source: equality is never similar;
containment requires both lengths `> 3`; otherwise edit-distance similarity
`1 - distance / maxLen` must exceed `0.8` with `maxLen > 5`. -/
def isSimilarName (name1 name2 : String) : Bool :=
  if name1 = name2 then false
  else if strIncludes name1 name2 || strIncludes name2 name1 then
    decide (name1.length > 3) && decide (name2.length > 3)
  else
    let distance := levenshteinDistance name1 name2
    let maxLen := max name1.length name2.length
    let similarity : ℚ := 1 - (distance : ℚ) / (maxLen : ℚ)
    decide (similarity > 8/10) && decide (maxLen > 5)

/-! ### Audit engine data model -/

inductive Severity where
  | Critical | High | Medium | Low
deriving DecidableEq, Repr

/-- An audit finding; display-only fields are omitted (see module docstring). -/
structure AuditIssue where
  id : String
  category : String
  severity : Severity
  autoFixable : Bool
deriving DecidableEq, Repr

structure CategoryAudit where
  score : Int
  status : String
  issueCount : Nat
  summary : String
deriving DecidableEq, Repr

structure AuditCategories where
  gst : CategoryAudit
  tds : CategoryAudit
  ledgerClassification : CategoryAudit
  partyMaster : CategoryAudit
  stockItems : CategoryAudit
  companyInfo : CategoryAudit
deriving DecidableEq, Repr

structure AuditReport where
  overallScore : Int
  totalIssues : Nat
  criticalIssues : Nat
  highIssues : Nat
  mediumIssues : Nat
  lowIssues : Nat
  categories : AuditCategories
  issues : List AuditIssue
deriving DecidableEq, Repr

/-! ### Snapshot records consumed by the audit

Fields keep the Tally tag names of the source; string fields model the raw
XML values whose JS truthiness is tested (`""` = absent). Balances are in
paise. -/

structure LedgerRec where
  name : String
  parent : String
  closingBalance : Int
  gstApplicable : Bool
  isTaxable : Bool
  istdsApplicable : String
  incomeTaxNumber : String
  tdsDeducteeType : String
  partyGstin : String
  gstRegistrationType : String
  ledgerStateName : String
deriving DecidableEq, Repr

/-- Short constructor for ledgers where only name/parent/balance matter. -/
def mkLedger (name parent : String) (closingBalance : Int) : LedgerRec :=
  ⟨name, parent, closingBalance, false, false, "", "", "", "", "", ""⟩

structure StockItemRec where
  name : String
  hsnCode : String
  gstRate : Option Int
  baseUnits : String
deriving DecidableEq, Repr

structure CompanyRec where
  gstNumber : String
  panNumber : String
  tanNumber : String
  state : String
deriving DecidableEq, Repr

/-! ### Rule tables (`GST_LEDGER_PATTERNS`, `TDS_LEDGER_PATTERNS`,
`TDS_APPLICABLE_EXPENSES`, misclassification rules) -/

def GST_OUTPUT_IGST : List String := ["output igst", "igst payable", "igst output", "igst on sales"]
def GST_OUTPUT_CGST : List String := ["output cgst", "cgst payable", "cgst output", "cgst on sales"]
def GST_OUTPUT_SGST : List String := ["output sgst", "sgst payable", "sgst output", "sgst on sales", "utgst payable"]
def GST_INPUT_IGST : List String := ["input igst", "igst receivable", "igst input", "igst on purchase"]
def GST_INPUT_CGST : List String := ["input cgst", "cgst receivable", "cgst input", "cgst on purchase"]
def GST_INPUT_SGST : List String := ["input sgst", "sgst receivable", "sgst input", "sgst on purchase", "utgst receivable"]

/-- The `requiredGSTLedgers` table of `auditGSTConfiguration`:
`(type, display name, patterns)`. -/
def requiredGSTLedgers : List (String × String × List String) :=
  [("OUTPUT_IGST", "Output IGST", GST_OUTPUT_IGST),
   ("OUTPUT_CGST", "Output CGST", GST_OUTPUT_CGST),
   ("OUTPUT_SGST", "Output SGST", GST_OUTPUT_SGST),
   ("INPUT_IGST", "Input IGST", GST_INPUT_IGST),
   ("INPUT_CGST", "Input CGST", GST_INPUT_CGST),
   ("INPUT_SGST", "Input SGST", GST_INPUT_SGST)]

/-- The `requiredTDSSections` table of `auditTDSConfiguration`:
`(section, patterns)`. -/
def requiredTDSSections : List (String × List String) :=
  [("194C", ["tds 194c", "tds on contractor", "tds contractor", "tds - contractor"]),
   ("194J", ["tds 194j", "tds on professional", "tds professional", "tds - professional", "tds technical"]),
   ("194H", ["tds 194h", "tds on commission", "tds commission", "tds - commission", "tds brokerage"]),
   ("194I", ["tds 194i", "tds on rent", "tds rent", "tds - rent"]),
   ("194A", ["tds 194a", "tds on interest", "tds interest", "tds - interest"])]

/-- `TDS_APPLICABLE_EXPENSES`, in `Object.entries` order. -/
def TDS_APPLICABLE_EXPENSES : List (String × List String) :=
  [("194C", ["contractor", "labour", "job work", "works contract", "sub-contract", "transportation", "freight", "cartage", "loading", "unloading", "catering", "housekeeping", "security"]),
   ("194J", ["professional", "consultancy", "legal", "audit", "accounting", "technical", "architect", "interior", "doctor", "medical", "engineering", "ca fees", "advocate"]),
   ("194H", ["commission", "brokerage", "agency"]),
   ("194I", ["rent", "lease", "hire"]),
   ("194A", ["interest"])]

/-- A misclassification rule: `(keywords, shouldBeUnder, currentlyUnder)`. -/
structure MisclassRule where
  keywords : List String
  shouldBeUnder : String
  currentlyUnder : List String
deriving Repr

/-- The `misclassificationRules` table of `auditLedgerClassification`. -/
def misclassificationRules : List MisclassRule :=
  [⟨["rent received", "rent income"], "Indirect Incomes", ["direct incomes", "sales"]⟩,
   ⟨["interest received", "interest income", "bank interest"], "Indirect Incomes", ["direct incomes", "sales"]⟩,
   ⟨["discount received"], "Indirect Incomes", ["direct incomes", "sales"]⟩,
   ⟨["salary", "wages", "staff welfare"], "Indirect Expenses", ["direct expenses"]⟩,
   ⟨["depreciation"], "Indirect Expenses", ["direct expenses"]⟩,
   ⟨["bank charges", "bank commission"], "Indirect Expenses", ["direct expenses"]⟩,
   ⟨["electricity", "power", "telephone", "mobile"], "Indirect Expenses", ["direct expenses"]⟩,
   ⟨["audit fee", "professional fee", "legal fee"], "Indirect Expenses", ["direct expenses"]⟩,
   ⟨["fixed deposit", "fd", "term deposit"], "Investments", ["bank accounts", "current assets"]⟩,
   ⟨["security deposit", "earnest money", "emd"], "Deposits (Asset)", ["current assets", "loans"]⟩]

/-! ### Validity checks -/

def isDigitChar (c : Char) : Bool := '0' ≤ c && c ≤ '9'
def isUpperAlphaChar (c : Char) : Bool := 'A' ≤ c && c ≤ 'Z'
def isUpperAlnumChar (c : Char) : Bool := isDigitChar c || isUpperAlphaChar c

/-- `isValidGSTIN`: length 15 and (upper-cased) match of
`^[0-9]{2}[A-Z]{5}[0-9]{4}[A-Z]{1}[1-9A-Z]{1}Z[0-9A-Z]{1}$`. -/
def isValidGSTIN (gstin : String) : Bool :=
  if gstin.length ≠ 15 then false
  else
    match (upperStr gstin).data with
    | [a, b, c, d, e, f, g, h, i, j, k, l, m, n, o] =>
      isDigitChar a && isDigitChar b &&
      isUpperAlphaChar c && isUpperAlphaChar d && isUpperAlphaChar e &&
      isUpperAlphaChar f && isUpperAlphaChar g &&
      isDigitChar h && isDigitChar i && isDigitChar j && isDigitChar k &&
      isUpperAlphaChar l &&
      (isUpperAlphaChar m || ('1' ≤ m && m ≤ '9')) &&
      (n = 'Z') && isUpperAlnumChar o
    | _ => false

/-- `isValidPAN`: length 10 and (upper-cased) match of `^[A-Z]{5}[0-9]{4}[A-Z]{1}$`. -/
def isValidPAN (pan : String) : Bool :=
  if pan.length ≠ 10 then false
  else
    match (upperStr pan).data with
    | [a, b, c, d, e, f, g, h, i, j] =>
      isUpperAlphaChar a && isUpperAlphaChar b && isUpperAlphaChar c &&
      isUpperAlphaChar d && isUpperAlphaChar e &&
      isDigitChar f && isDigitChar g && isDigitChar h && isDigitChar i &&
      isUpperAlphaChar j
    | _ => false

/-! ### The six audit category functions

Each TS function starts by fetching its own data and returns `[]` when that
fetch fails (`if (!response.success) return issues;`).  The fetch result is
modelled as an `Option` argument, `none` meaning the fetch failed. -/

/-- `auditCompanyInfo` (`none` also covers "company not found"). -/
def auditCompanyInfo (company : Option CompanyRec) : List AuditIssue :=
  match company with
  | none => []
  | some c =>
    (if c.gstNumber = "" then [⟨"COMP_001", "Company Info", .Critical, false⟩]
     else if ¬ isValidGSTIN c.gstNumber then [⟨"COMP_002", "Company Info", .High, false⟩]
     else []) ++
    (if c.panNumber = "" then [⟨"COMP_003", "Company Info", .Critical, false⟩]
     else if ¬ isValidPAN c.panNumber then [⟨"COMP_004", "Company Info", .High, false⟩]
     else []) ++
    (if c.tanNumber = "" then [⟨"COMP_005", "Company Info", .High, false⟩] else []) ++
    (if c.state = "" then [⟨"COMP_006", "Company Info", .High, false⟩] else [])

/-- The `dutiesLedgers` filter shared by the GST and TDS audits. -/
def dutiesFilter (ledgers : List LedgerRec) : List LedgerRec :=
  ledgers.filter fun l =>
    strIncludes (lowerStr l.parent) "duties" || strIncludes (lowerStr l.parent) "taxes"

/-- Ambiguous-name check of `auditGSTConfiguration` for one duties ledger. -/
def gstAmbiguousIssue (l : LedgerRec) : List AuditIssue :=
  let name := lowerStr l.name
  if strIncludes name "gst" && !strIncludes name "igst" && !strIncludes name "cgst" &&
      !strIncludes name "sgst" && !strIncludes name "cess" then
    [⟨"GST_AMBIGUOUS_" ++ l.name, "GST", .High, false⟩]
  else []

/-- Wrong-group check of `auditGSTConfiguration` for one duties ledger. -/
def gstWrongGroupIssue (l : LedgerRec) : List AuditIssue :=
  let name := lowerStr l.name
  if (strIncludes name "igst" || strIncludes name "cgst" || strIncludes name "sgst") &&
      !strIncludes (lowerStr l.parent) "duties" then
    [⟨"GST_WRONG_GROUP_" ++ l.name, "GST", .High, true⟩]
  else []

/-- `auditGSTConfiguration`. -/
def auditGSTConfiguration (data : Option (List LedgerRec)) : List AuditIssue :=
  match data with
  | none => []
  | some ledgers =>
    let dutiesLedgers := dutiesFilter ledgers
    let missing := requiredGSTLedgers.filterMap fun r =>
      if dutiesLedgers.any (fun l => r.2.2.any fun p => strIncludes (lowerStr l.name) p) then
        none
      else
        some ⟨"GST_" ++ r.1 ++ "_MISSING", "GST", .Critical, true⟩
    let naming := dutiesLedgers.flatMap fun l => gstAmbiguousIssue l ++ gstWrongGroupIssue l
    let sales := (ledgers.filter fun l => strIncludes (lowerStr l.parent) "sales").filterMap
      fun l =>
        if !l.gstApplicable && !l.isTaxable then
          some ⟨"GST_SALES_" ++ l.name, "GST", .Medium, false⟩
        else none
    let purchase := (ledgers.filter fun l => strIncludes (lowerStr l.parent) "purchase").filterMap
      fun l =>
        if !l.gstApplicable && !l.isTaxable then
          some ⟨"GST_PURCHASE_" ++ l.name, "GST", .Medium, false⟩
        else none
    missing ++ naming ++ sales ++ purchase

/-- Per-expense-ledger TDS applicability check of `auditTDSConfiguration`:
the first section whose keyword list matches wins (the TS loop `break`s). -/
def tdsExpenseIssue (l : LedgerRec) : List AuditIssue :=
  match TDS_APPLICABLE_EXPENSES.find? (fun e => e.2.any fun kw => strIncludes (lowerStr l.name) kw) with
  | some (sec, _) =>
    if l.istdsApplicable = "" || l.istdsApplicable = "No" then
      [⟨"TDS_EXPENSE_" ++ l.name ++ "_" ++ sec, "TDS", .High, true⟩]
    else []
  | none => []

/-- `auditTDSConfiguration`. -/
def auditTDSConfiguration (data : Option (List LedgerRec)) : List AuditIssue :=
  match data with
  | none => []
  | some ledgers =>
    let dutiesLedgers := dutiesFilter ledgers
    let missing := requiredTDSSections.filterMap fun r =>
      if dutiesLedgers.any (fun l => r.2.any fun p => strIncludes (lowerStr l.name) p) then
        none
      else
        some ⟨"TDS_" ++ r.1 ++ "_MISSING", "TDS", .High, true⟩
    let expense := (ledgers.filter fun l => strIncludes (lowerStr l.parent) "expense").flatMap
      tdsExpenseIssue
    let creditors := ledgers.filter fun l =>
      strIncludes (lowerStr l.parent) "sundry creditor"
    let significant := creditors.filter fun l => 3000000 < |l.closingBalance|
    let withoutPAN := (significant.filter fun l => l.incomeTaxNumber = "").map (·.name)
    let withoutType := (significant.filter fun l => l.tdsDeducteeType = "").map (·.name)
    missing ++ expense ++
    (if withoutPAN.length > 0 then [⟨"TDS_CREDITORS_NO_PAN", "TDS", .High, false⟩] else []) ++
    (if withoutType.length > 0 then [⟨"TDS_CREDITORS_NO_TYPE", "TDS", .Medium, false⟩] else [])

/-- Misclassification issues of one ledger: every matching rule fires (the TS
loop over `misclassificationRules` has no `break`). -/
def misclassIssues (l : LedgerRec) : List AuditIssue :=
  misclassificationRules.filterMap fun r =>
    match r.keywords.find? (fun kw => strIncludes (lowerStr l.name) kw) with
    | some _ =>
      if r.currentlyUnder.any (fun g => strIncludes (lowerStr l.parent) g) then
        some ⟨"LEDGER_MISCLASS_" ++ l.name, "Ledger Classification", .Medium, true⟩
      else none
    | none => none

/-- The duplicate-group loop of `auditLedgerClassification`.  `full` is the
whole indexed `(name, normalized)` list, the second argument the remaining
iteration suffix, and `checked` the set of already-grouped normalized names. -/
def dupLoop (full : List (Nat × String × String)) :
    List (Nat × String × String) → List String → List (List String)
  | [], _ => []
  | (i, nm, norm) :: rest, checked =>
    if checked.contains norm then dupLoop full rest checked
    else
      let similar := full.filter fun q => q.1 ≠ i && isSimilarName norm q.2.2
      if similar.length > 0 then
        (nm :: similar.map (fun q => q.2.1)) ::
          dupLoop full rest (norm :: checked ++ similar.map fun q => q.2.2)
      else dupLoop full rest checked

/-- The issue emitted for one duplicate group: potential duplicates are never
auto-fixable. -/
def dupIssueOf (g : List String) : AuditIssue :=
  ⟨"LEDGER_DUPLICATE_" ++ g.headD "", "Ledger Classification", .Medium, false⟩

/-- `auditLedgerClassification`. -/
def auditLedgerClassification (data : Option (List LedgerRec)) : List AuditIssue :=
  match data with
  | none => []
  | some ledgers =>
    let suspense := (ledgers.filter fun l => strIncludes (lowerStr l.parent) "suspense").filterMap
      fun l =>
        if l.closingBalance ≠ 0 then
          some ⟨"LEDGER_SUSPENSE_" ++ l.name, "Ledger Classification", .Critical, false⟩
        else none
    let misclass := ledgers.flatMap misclassIssues
    let named := ledgers.map fun l => (l.name, normalizeName l.name)
    let groups := dupLoop named.enum named.enum []
    suspense ++ misclass ++ groups.map dupIssueOf

/-- `auditPartyMasters`. -/
def auditPartyMasters (data : Option (List LedgerRec)) : List AuditIssue :=
  match data with
  | none => []
  | some ledgers =>
    let debtors := (ledgers.filter fun l => strIncludes (lowerStr l.parent) "sundry debtor").filter
      fun l => 0 < |l.closingBalance|
    let debtorsNoGSTIN := debtors.filter fun l => l.partyGstin = "" && l.gstRegistrationType = ""
    let debtorsNoState := debtors.filter fun l => l.ledgerStateName = ""
    let creditors := (ledgers.filter fun l => strIncludes (lowerStr l.parent) "sundry creditor").filter
      fun l => 0 < |l.closingBalance|
    let creditorsNoGSTIN := creditors.filter fun l => l.partyGstin = "" && l.gstRegistrationType = ""
    let creditorsInvalid := creditors.filter fun l =>
      !(l.partyGstin = "" && l.gstRegistrationType = "") &&
      (l.partyGstin ≠ "" && !isValidGSTIN l.partyGstin)
    (if debtorsNoGSTIN.length > 0 then [⟨"PARTY_DEBTORS_NO_GSTIN", "Party Master", .High, false⟩] else []) ++
    (if debtorsNoState.length > 0 then [⟨"PARTY_DEBTORS_NO_STATE", "Party Master", .Medium, false⟩] else []) ++
    (if creditorsNoGSTIN.length > 0 then [⟨"PARTY_CREDITORS_NO_GSTIN", "Party Master", .High, false⟩] else []) ++
    (if creditorsInvalid.length > 0 then [⟨"PARTY_CREDITORS_INVALID_GSTIN", "Party Master", .Critical, false⟩] else [])

/-- `auditStockItems`. -/
def auditStockItems (data : Option (List StockItemRec)) : List AuditIssue :=
  match data with
  | none => []
  | some items =>
    let noHSN := items.filter fun i => i.hsnCode = ""
    let noRate := items.filter fun i => i.gstRate = none
    let noUnit := items.filter fun i => i.baseUnits = ""
    (if noHSN.length > 0 then [⟨"STOCK_NO_HSN", "Stock Item", .High, false⟩] else []) ++
    (if noRate.length > 0 then [⟨"STOCK_NO_GST_RATE", "Stock Item", .High, false⟩] else []) ++
    (if noUnit.length > 0 then [⟨"STOCK_NO_UNIT", "Stock Item", .Medium, false⟩] else [])

/-! ### Scores and the full audit -/

/-- Count of issues of a given severity. -/
def sevCount (issues : List AuditIssue) (s : Severity) : Nat :=
  (issues.filter fun i => i.severity = s).length

/-- `calculateCategoryScore`: `100 − 20·critical − 10·high − 5·medium − 2·low`,
floored at `0`, with the status thresholds `≥ 80` / `≥ 50`. -/
def calculateCategoryScore (issues : List AuditIssue) (categoryName : String) : CategoryAudit :=
  let critical := sevCount issues .Critical
  let high := sevCount issues .High
  let medium := sevCount issues .Medium
  let low := sevCount issues .Low
  let score : Int := max 0 (100 - critical * 20 - high * 10 - medium * 5 - low * 2)
  let status := if score ≥ 80 then "Good" else if score ≥ 50 then "Needs Attention" else "Critical"
  let n := issues.length
  let summary :=
    if issues.length = 0 then s!"{categoryName} configuration looks good!"
    else s!"Found {n} issue(s): {critical} critical, {high} high, {medium} medium, {low} low"
  ⟨score, status, issues.length, summary⟩

/-- Report assembly of `runFullAudit`: union of the per-category issues,
overall score `100 − 15·critical − 8·high − 3·medium − 1·low` floored at `0`,
and `calculateCategoryScore` per category. -/
def assembleReport (companyIssues gstIssues tdsIssues ledgerIssues partyIssues stockIssues :
    List AuditIssue) : AuditReport :=
  let issues := companyIssues ++ gstIssues ++ tdsIssues ++ ledgerIssues ++ partyIssues ++ stockIssues
  let criticalCount := sevCount issues .Critical
  let highCount := sevCount issues .High
  let mediumCount := sevCount issues .Medium
  let lowCount := sevCount issues .Low
  let score : Int := max 0 (100 - criticalCount * 15 - highCount * 8 - mediumCount * 3 - lowCount * 1)
  { overallScore := score
    totalIssues := issues.length
    criticalIssues := criticalCount
    highIssues := highCount
    mediumIssues := mediumCount
    lowIssues := lowCount
    categories :=
      { gst := calculateCategoryScore gstIssues "GST"
        tds := calculateCategoryScore tdsIssues "TDS"
        ledgerClassification := calculateCategoryScore ledgerIssues "Ledger Classification"
        partyMaster := calculateCategoryScore partyIssues "Party Master"
        stockItems := calculateCategoryScore stockIssues "Stock Items"
        companyInfo := calculateCategoryScore companyIssues "Company Info" }
    issues := issues }

/-- `runFullAudit`: each category audit runs on its own (independently
fallible) data fetch and the results are aggregated. -/
def runFullAudit (company : Option CompanyRec)
    (gstData tdsData classData partyData : Option (List LedgerRec))
    (stockData : Option (List StockItemRec)) : AuditReport :=
  assembleReport (auditCompanyInfo company) (auditGSTConfiguration gstData)
    (auditTDSConfiguration tdsData) (auditLedgerClassification classData)
    (auditPartyMasters partyData) (auditStockItems stockData)

/-! ### ReconciliationMatcher (`autoReconcile` of `BankReconciliationTools`)

The TS book map is keyed by the string `` `${chequeNumber}_${amount.toFixed(2)}` ``;
since the amount part never contains an underscore, two records get the same
key string exactly when they agree on both components, so the key is modelled
as the pair `(chequeNumber, amount)` directly.  Book transactions are tagged
with their position so that the JS reference-equality `indexOf`/`splice`
removal is value removal here even between structurally equal records. -/

structure BankTxn where
  date : Int
  chequeNumber : String
  debit : Int
  credit : Int
deriving DecidableEq, Repr

structure StmtEntry where
  date : Int
  chequeNumber : String
  debit : Int
  credit : Int
deriving DecidableEq, Repr

/-- JS `a || b` on numbers (`0` is falsy). -/
def jsOr (a b : Int) : Int := if a ≠ 0 then a else b

/-- The amount a record contributes: `debit || credit`. -/
def txnAmount (t : BankTxn) : Int := jsOr t.debit t.credit

def entryAmount (e : StmtEntry) : Int := jsOr e.debit e.credit

abbrev TaggedTxn := Nat × BankTxn

abbrev MatchKey := String × Int

/-- `createMatchKey(txn)`. -/
def createMatchKey (t : BankTxn) : MatchKey := (t.chequeNumber, txnAmount t)

abbrev BookMap := List (MatchKey × List TaggedTxn)

def mapLookup : BookMap → MatchKey → Option (List TaggedTxn)
  | [], _ => none
  | (k', v) :: rest, k => if k' = k then some v else mapLookup rest k

/-- Replace the value stored at a present key. -/
def mapSet : BookMap → MatchKey → List TaggedTxn → BookMap
  | [], _, _ => []
  | (k', v) :: rest, k, w => if k' = k then (k', w) :: rest else (k', v) :: mapSet rest k w

/-- `bookMap.get(key).push(txn)`, creating the entry when absent. -/
def mapInsertPush : BookMap → MatchKey → TaggedTxn → BookMap
  | [], k, t => [(k, [t])]
  | (k', v) :: rest, k, t =>
    if k' = k then (k', v ++ [t]) :: rest else (k', v) :: mapInsertPush rest k t

/-- The map-building loop over the book transactions. -/
def buildBookMap (books : List TaggedTxn) : BookMap :=
  books.foldl (fun m t => mapInsertPush m (createMatchKey t.2) t) []

/-- `candidates.shift()`: take the first candidate at `k`, if any. -/
def mapConsume (m : BookMap) (k : MatchKey) : Option TaggedTxn × BookMap :=
  match mapLookup m k with
  | some (t :: ts) => (some t, mapSet m k ts)
  | _ => (none, m)

inductive MatchType where
  | Exact            -- 'Exact'
  | AmountDate       -- 'Amount+Date'
  | AmountDateTolerant -- 'Amount (Date Mismatch)'
deriving DecidableEq, Repr

structure MatchedPair where
  book : BankTxn
  entry : StmtEntry
  matchType : MatchType
  daysDifference : Option Int
deriving DecidableEq, Repr

structure ReconState where
  matched : List MatchedPair
  unmatchedStmt : List StmtEntry
  books : List TaggedTxn
  bmap : BookMap
deriving DecidableEq, Repr

/-- Fuzzy candidate test: `|amount − bookAmount| < 1` (major unit, `100` paise)
and `|date − bookDate| ≤ 7` days. -/
def fuzzyOk (e : StmtEntry) (b : BankTxn) : Bool :=
  |entryAmount e - txnAmount b| < 100 && |e.date - b.date| ≤ 7

/-- The fuzzy scan over the remaining book transactions: first candidate in
scan order wins; returns it and the list with it spliced out. -/
def fuzzyFind (e : StmtEntry) : List TaggedTxn → Option (TaggedTxn × List TaggedTxn)
  | [] => none
  | b :: bs =>
    if fuzzyOk e b.2 then some (b, bs)
    else
      match fuzzyFind e bs with
      | some (t, rest) => some (t, b :: rest)
      | none => none

/-- Fuzzy phase for one statement entry. -/
def fuzzyStep (s : ReconState) (e : StmtEntry) : ReconState :=
  match fuzzyFind e s.books with
  | some (t, rest) =>
    let dd := |e.date - t.2.date|
    { s with
      matched := s.matched ++
        [⟨t.2, e, if dd = 0 then .AmountDate else .AmountDateTolerant, some dd⟩]
      books := rest }
  | none => { s with unmatchedStmt := s.unmatchedStmt ++ [e] }

/-- Processing of one statement entry: exact phase (cheque number present and
a candidate available), then fuzzy fallback.  Note that the exact phase
removes the consumed transaction from both the map and the list, while the
fuzzy phase removes only from the list — exactly as the source does. -/
def reconStep (s : ReconState) (e : StmtEntry) : ReconState :=
  if e.chequeNumber ≠ "" then
    match mapConsume s.bmap (e.chequeNumber, entryAmount e) with
    | (some t, bmap2) =>
      { s with
        matched := s.matched ++ [⟨t.2, e, .Exact, none⟩]
        bmap := bmap2
        books := s.books.erase t }
    | (none, _) => fuzzyStep s e
  else fuzzyStep s e

structure ReconResult where
  matched : List MatchedPair
  unmatchedInBooks : List BankTxn
  unmatchedInStatement : List StmtEntry
  totalMatched : Nat
  totalUnmatchedBooks : Nat
  totalUnmatchedStatement : Nat
  matchPercentage : ℚ
deriving DecidableEq, Repr

/-- `autoReconcile(bookTransactions, statementEntries)` (matching part; the
bank-book fetch that precedes it is outside the matcher). -/
def autoReconcile (books : List BankTxn) (stmts : List StmtEntry) : ReconResult :=
  let tagged := books.enum
  let final := stmts.foldl reconStep ⟨[], [], tagged, buildBookMap tagged⟩
  let totalMatched := final.matched.length
  let totalUnmatchedBooks := final.books.length
  let totalUnmatchedStatement := final.unmatchedStmt.length
  let totalEntries := totalMatched + totalUnmatchedBooks + totalUnmatchedStatement
  { matched := final.matched
    unmatchedInBooks := final.books.map (·.2)
    unmatchedInStatement := final.unmatchedStmt
    totalMatched := totalMatched
    totalUnmatchedBooks := totalUnmatchedBooks
    totalUnmatchedStatement := totalUnmatchedStatement
    matchPercentage :=
      if totalEntries > 0 then (totalMatched : ℚ) / (totalEntries : ℚ) * 100 else 0 }

/-! ### AgingCalculator (`getDebtorsAging` / `getCreditorsAging`) -/

structure BillAlloc where
  billDate : Option Int
  amount : Int
deriving DecidableEq, Repr

structure PartyLedgerRec where
  name : String
  closingBalance : Int
  bills : List BillAlloc
deriving DecidableEq, Repr

structure AgedParty where
  partyName : String
  current : Int
  days30 : Int
  days60 : Int
  days90 : Int
  days180 : Int
  above180 : Int
  total : Int
deriving DecidableEq, Repr

/-- `agingDays`: `asOfDate − (billDate || asOnDate)` in whole days. -/
def agingDaysOf (asOf : Int) (b : BillAlloc) : Int :=
  asOf - b.billDate.getD asOf

/-- The bucket cascade of the source (`≤ 0` current, `≤ 30`, `≤ 60`, `≤ 90`,
`≤ 180`, else above 180). -/
def addBucket (a : AgedParty) (d amt : Int) : AgedParty :=
  if d ≤ 0 then { a with current := a.current + amt }
  else if d ≤ 30 then { a with days30 := a.days30 + amt }
  else if d ≤ 60 then { a with days60 := a.days60 + amt }
  else if d ≤ 90 then { a with days90 := a.days90 + amt }
  else if d ≤ 180 then { a with days180 := a.days180 + amt }
  else { a with above180 := a.above180 + amt }

/-- Aging of one receivable party ledger (`getDebtorsAging` loop body). -/
def debtorAged (asOf : Int) (l : PartyLedgerRec) : AgedParty :=
  let base : AgedParty := ⟨l.name, 0, 0, 0, 0, 0, 0, l.closingBalance⟩
  let aged := l.bills.foldl (fun a bl => addBucket a (agingDaysOf asOf bl) bl.amount) base
  if l.bills.isEmpty then { aged with current := l.closingBalance } else aged

/-- Aging of one payable party ledger (`getCreditorsAging` loop body;
amounts and the balance are taken absolute). -/
def creditorAged (asOf : Int) (l : PartyLedgerRec) : AgedParty :=
  let base : AgedParty := ⟨l.name, 0, 0, 0, 0, 0, 0, |l.closingBalance|⟩
  let aged := l.bills.foldl (fun a bl => addBucket a (agingDaysOf asOf bl) |bl.amount|) base
  if l.bills.isEmpty then { aged with current := |l.closingBalance| } else aged

/-- `getDebtorsAging`: only debit (positive) balances are receivables. -/
def getDebtorsAging (asOf : Int) (ledgers : List PartyLedgerRec) : List AgedParty :=
  (ledgers.filter fun l => 0 < l.closingBalance).map (debtorAged asOf)

/-- `getCreditorsAging`: only credit (negative) balances are payables. -/
def getCreditorsAging (asOf : Int) (ledgers : List PartyLedgerRec) : List AgedParty :=
  (ledgers.filter fun l => l.closingBalance < 0).map (creditorAged asOf)

/-- Which of the six buckets an age lands in (mirrors `addBucket`). -/
def bucketIdx (d : Int) : Fin 6 :=
  if d ≤ 0 then 0 else if d ≤ 30 then 1 else if d ≤ 60 then 2 else if d ≤ 90 then 3
  else if d ≤ 180 then 4 else 5

/-- Bucket field projection. -/
def bucketGet (a : AgedParty) (k : Fin 6) : Int :=
  [a.current, a.days30, a.days60, a.days90, a.days180, a.above180].get k

/-- Sum of the six bucket amounts. -/
def bucketsSum (a : AgedParty) : Int :=
  a.current + a.days30 + a.days60 + a.days90 + a.days180 + a.above180

/-! ### Spec-side predicates for the duplicate rule (claim C8)

These follow the claim's words, to be compared with `isSimilarName` from the
source. -/

/-- "one is a substring of the other": `s` occurs contiguously in `t`. -/
def isSubstringOf (s t : String) : Prop :=
  ∃ pre post : List Char, t.data = pre ++ s.data ++ post

/-- Edit-distance similarity, `1 − distance / longerLength`. -/
def similarityOf (a b : String) : ℚ :=
  1 - (levenshteinDistance a b : ℚ) / ((max a.length b.length : ℕ) : ℚ)

/-- The duplicate rule exactly as the claim states it: normalized forms
distinct, and substring containment either way, or similarity above `0.8`
with BOTH normalized forms longer than 5 characters. -/
def claimDuplicateRule (n1 n2 : String) : Prop :=
  n1 ≠ n2 ∧
    (isSubstringOf n1 n2 ∨ isSubstringOf n2 n1 ∨
      (similarityOf n1 n2 > 8/10 ∧ 5 < n1.length ∧ 5 < n2.length))

/-- The amended duplicate rule: the substring branch additionally requires
both forms longer than 3 characters and pre-empts the similarity branch;
the similarity branch only requires the LONGER form to exceed 5 characters. -/
def amendedDuplicateRule (n1 n2 : String) : Prop :=
  n1 ≠ n2 ∧
    (((isSubstringOf n1 n2 ∨ isSubstringOf n2 n1) ∧ 3 < n1.length ∧ 3 < n2.length) ∨
      (¬(isSubstringOf n1 n2 ∨ isSubstringOf n2 n1) ∧
        similarityOf n1 n2 > 8/10 ∧ 5 < max n1.length n2.length))

/-! ### Concrete inputs used by the scenario and counterexample theorems -/

/-- Book transaction with cheque number `C`, amount 1000.00, day 0. -/
def cbBook : BankTxn := ⟨0, "C", 100000, 0⟩

/-- Statement entry without cheque number, amount 1000.00, day 0. -/
def cbStmtA : StmtEntry := ⟨0, "", 100000, 0⟩

/-- Statement entry with cheque number `C`, amount 1000.00, day 3. -/
def cbStmtB : StmtEntry := ⟨3, "C", 100000, 0⟩

/-- Book record of the fuzzy-tolerance scenario: 2024-02-01 (day 0), 1000.00. -/
def fzBook : BankTxn := ⟨0, "", 100000, 0⟩

/-- External record 2024-02-08 (day 7), 1000.50. -/
def fzStmt7 : StmtEntry := ⟨7, "", 100050, 0⟩

/-- External record 2024-02-09 (day 8), 1000.50. -/
def fzStmt8 : StmtEntry := ⟨8, "", 100050, 0⟩

/-- Book record of the exact-match scenario: 2024-01-10 (day 0), CHQ100, 5000. -/
def chqBook : BankTxn := ⟨0, "CHQ100", 500000, 0⟩

/-- External record 2024-01-12 (day 2), CHQ100, 5000. -/
def chqStmt : StmtEntry := ⟨2, "CHQ100", 500000, 0⟩

/-- A ledger matching the keyword lists of two different misclassification
rules ("bank charges" and "electricity") under "Direct Expenses". -/
def dupIdLedger : LedgerRec := mkLedger "Electricity Bank Charges" "Direct Expenses" 0

/-- The single ledger of the GST presence scenario. -/
def outputCgstLedger : LedgerRec := mkLedger "Output CGST" "Duties & Taxes" 0

/-- A company profile with valid GSTIN/PAN and TAN/state present. -/
def completeCompany : CompanyRec := ⟨"27AAPFU0939F1ZV", "AAPFU0939F", "MUMA12345B", "Maharashtra"⟩

/-- A ledger set on which the GST category audit finds nothing. -/
def cleanGstLedgers : List LedgerRec :=
  [mkLedger "Output IGST" "Duties & Taxes" 0,
   mkLedger "Output CGST" "Duties & Taxes" 0,
   mkLedger "Output SGST" "Duties & Taxes" 0,
   mkLedger "Input IGST" "Duties & Taxes" 0,
   mkLedger "Input CGST" "Duties & Taxes" 0,
   mkLedger "Input SGST" "Duties & Taxes" 0]

/-- A receivable party with one bill aged exactly 60 days at `asOf = 60`. -/
def agedSixtyLedger : PartyLedgerRec := ⟨"Party A", 100000, [⟨some 0, 100000⟩]⟩

/-- A receivable party with no bill allocations. -/
def noBillsLedger : PartyLedgerRec := ⟨"Party B", 250000, []⟩

/-! ### Spec-side score formulas (claim C1's clamped forms) -/

/-- Per-category score as the claim states it: `100 − 20·critical − 10·high −
5·medium − 2·low`, clamped to `[0, 100]`. -/
def claimCategoryScore (issues : List AuditIssue) : Int :=
  min 100 (max 0 (100 - 20 * (sevCount issues .Critical : Int) - 10 * (sevCount issues .High : Int)
    - 5 * (sevCount issues .Medium : Int) - 2 * (sevCount issues .Low : Int)))

/-- Overall score as the claim states it: weights `15/8/3/1` over the union
of all issues, clamped to `[0, 100]`. -/
def claimOverallScore (issues : List AuditIssue) : Int :=
  min 100 (max 0 (100 - 15 * (sevCount issues .Critical : Int) - 8 * (sevCount issues .High : Int)
    - 3 * (sevCount issues .Medium : Int) - 1 * (sevCount issues .Low : Int)))

/-- The full audit run on the GST presence scenario: ledgers are exactly
`["Output CGST"]` under `Duties & Taxes`, the company profile is complete
and there are no stock items. -/
def gstScenarioReport : AuditReport :=
  runFullAudit (some completeCompany) (some [outputCgstLedger]) (some [outputCgstLedger])
    (some [outputCgstLedger]) (some [outputCgstLedger]) (some [])

/-! ## Helper lemmas -/

theorem levAux_nil_right (as : List Char) : levAux as [] = as.length := by
  cases as <;> simp [levAux]

theorem levAux_comm (as bs : List Char) : levAux as bs = levAux bs as := by
  induction as, bs using levAux.induct with
  | case1 bs => simp [levAux, levAux_nil_right]
  | case2 a as => simp [levAux, levAux_nil_right]
  | case3 ps c cs ih => simp [levAux, ih]
  | case4 p ps c cs h ih1 ih2 ih3 =>
    have h' : ¬ c = p := fun hh => h hh.symm
    simp only [levAux, if_neg h, if_neg h']
    rw [ih1, ih2, ih3]
    omega

theorem startsWithList_iff (pat l : List Char) :
    startsWithList pat l = true ↔ ∃ rest, l = pat ++ rest := by
  induction pat generalizing l with
  | nil => simp [startsWithList]
  | cons p ps ih =>
    cases l with
    | nil => simp [startsWithList]
    | cons c cs =>
      simp only [startsWithList, Bool.and_eq_true, decide_eq_true_eq, ih, List.cons_append,
        List.cons.injEq]
      constructor
      · rintro ⟨rfl, rest, rfl⟩; exact ⟨rest, rfl, rfl⟩
      · rintro ⟨rest, rfl, rfl⟩; exact ⟨rfl, rest, rfl⟩

theorem hasSubstring_iff (hay needle : List Char) :
    hasSubstring hay needle = true ↔ ∃ pre post, hay = pre ++ needle ++ post := by
  induction hay with
  | nil =>
    simp only [hasSubstring, List.isEmpty_iff]
    constructor
    · rintro rfl; exact ⟨[], [], rfl⟩
    · rintro ⟨pre, post, h⟩
      rcases List.append_eq_nil.mp h.symm with ⟨h1, h2⟩
      exact (List.append_eq_nil.mp h1).2
  | cons c cs ih =>
    simp only [hasSubstring, Bool.or_eq_true, startsWithList_iff, ih]
    constructor
    · rintro (⟨rest, h⟩ | ⟨pre, post, h⟩)
      · exact ⟨[], rest, by simpa using h⟩
      · exact ⟨c :: pre, post, by simp [h]⟩
    · rintro ⟨pre, post, h⟩
      cases pre with
      | nil => exact Or.inl ⟨post, by simpa using h⟩
      | cons p ps =>
        right
        refine ⟨ps, post, ?_⟩
        simp only [List.cons_append] at h
        exact (List.cons.inj h).2

theorem strIncludes_iff (hay needle : String) :
    strIncludes hay needle = true ↔ isSubstringOf needle hay := by
  simpa [strIncludes, isSubstringOf] using hasSubstring_iff hay.data needle.data

theorem isSimilarName_comm (a b : String) : isSimilarName a b = isSimilarName b a := by
  unfold isSimilarName
  by_cases hab : a = b
  · subst hab; simp
  · have hba : ¬ b = a := fun h => hab h.symm
    have hlev : levenshteinDistance a b = levenshteinDistance b a := levAux_comm _ _
    have hmax : max a.length b.length = max b.length a.length := Nat.max_comm _ _
    simp only [if_neg hab, if_neg hba, hlev, hmax,
      Bool.or_comm (strIncludes a b) (strIncludes b a),
      Bool.and_comm (decide (a.length > 3)) (decide (b.length > 3))]

theorem isSimilarName_self (a : String) : isSimilarName a a = false := by
  simp [isSimilarName]

theorem isSimilarName_iff_amended (n1 n2 : String) :
    isSimilarName n1 n2 = true ↔ amendedDuplicateRule n1 n2 := by
  have hsubIff : (strIncludes n1 n2 || strIncludes n2 n1) = true ↔
      (isSubstringOf n1 n2 ∨ isSubstringOf n2 n1) := by
    rw [Bool.or_eq_true, strIncludes_iff, strIncludes_iff]; exact Or.comm
  unfold isSimilarName amendedDuplicateRule similarityOf
  by_cases hab : n1 = n2
  · simp [hab]
  · simp only [if_neg hab]
    by_cases hsub : (strIncludes n1 n2 || strIncludes n2 n1) = true
    · rw [if_pos hsub]
      have hs := hsubIff.mp hsub
      simp only [Bool.and_eq_true, decide_eq_true_eq]
      constructor
      · rintro ⟨h1, h2⟩; exact ⟨hab, Or.inl ⟨hs, h1, h2⟩⟩
      · rintro ⟨-, (⟨-, h1, h2⟩ | ⟨hns, -⟩)⟩
        · exact ⟨h1, h2⟩
        · exact absurd hs hns
    · rw [if_neg hsub]
      have hs : ¬ (isSubstringOf n1 n2 ∨ isSubstringOf n2 n1) := fun h => hsub (hsubIff.mpr h)
      simp only [Bool.and_eq_true, decide_eq_true_eq]
      constructor
      · rintro ⟨h1, h2⟩; exact ⟨hab, Or.inr ⟨hs, h1, h2⟩⟩
      · rintro ⟨-, (⟨hss, -⟩ | ⟨-, h1, h2⟩)⟩
        · exact absurd hss hs
        · exact ⟨h1, h2⟩

theorem bucketGet_addBucket (a : AgedParty) (d amt : Int) (k : Fin 6) :
    bucketGet (addBucket a d amt) k = bucketGet a k + (if bucketIdx d = k then amt else 0) := by
  unfold addBucket bucketIdx
  by_cases h1 : d ≤ 0
  · simp only [if_pos h1]; fin_cases k <;> simp [bucketGet] <;> rfl
  · by_cases h2 : d ≤ 30
    · simp only [if_neg h1, if_pos h2]; fin_cases k <;> simp [bucketGet] <;> rfl
    · by_cases h3 : d ≤ 60
      · simp only [if_neg h1, if_neg h2, if_pos h3]; fin_cases k <;> simp [bucketGet] <;> rfl
      · by_cases h4 : d ≤ 90
        · simp only [if_neg h1, if_neg h2, if_neg h3, if_pos h4]
          fin_cases k <;> simp [bucketGet] <;> rfl
        · by_cases h5 : d ≤ 180
          · simp only [if_neg h1, if_neg h2, if_neg h3, if_neg h4, if_pos h5]
            fin_cases k <;> simp [bucketGet] <;> rfl
          · simp only [if_neg h1, if_neg h2, if_neg h3, if_neg h4, if_neg h5]
            fin_cases k <;> simp [bucketGet] <;> rfl

theorem bucketGet_foldl (asOf : Int) (f : BillAlloc → Int) (bills : List BillAlloc)
    (a : AgedParty) (k : Fin 6) :
    bucketGet (bills.foldl (fun x bl => addBucket x (agingDaysOf asOf bl) (f bl)) a) k =
      bucketGet a k +
        ((bills.filter fun bl => bucketIdx (agingDaysOf asOf bl) = k).map f).sum := by
  induction bills generalizing a with
  | nil => simp
  | cons bl rest ih =>
    simp only [List.foldl_cons, List.filter_cons]
    rw [ih, bucketGet_addBucket]
    by_cases h : bucketIdx (agingDaysOf asOf bl) = k
    · simp [h]; omega
    · simp [h]

theorem bucketsSum_addBucket (a : AgedParty) (d amt : Int) :
    bucketsSum (addBucket a d amt) = bucketsSum a + amt := by
  simp only [bucketsSum, addBucket]; split_ifs <;> simp <;> omega

theorem bucketsSum_foldl (asOf : Int) (f : BillAlloc → Int) (bills : List BillAlloc)
    (a : AgedParty) :
    bucketsSum (bills.foldl (fun x bl => addBucket x (agingDaysOf asOf bl) (f bl)) a) =
      bucketsSum a + (bills.map f).sum := by
  induction bills generalizing a with
  | nil => simp
  | cons bl rest ih =>
    simp only [List.foldl_cons, List.map_cons, List.sum_cons]
    rw [ih, bucketsSum_addBucket]
    omega

theorem bucketGet_base (nm : String) (bal : Int) (k : Fin 6) :
    bucketGet ⟨nm, 0, 0, 0, 0, 0, 0, bal⟩ k = 0 := by
  fin_cases k <;> rfl

theorem fuzzyFind_eq_some (e : StmtEntry) (bs : List TaggedTxn) (t : TaggedTxn)
    (rest : List TaggedTxn) (h : fuzzyFind e bs = some (t, rest)) :
    fuzzyOk e t.2 = true ∧
    ∃ pre post, bs = pre ++ t :: post ∧ rest = pre ++ post ∧
      ∀ u ∈ pre, fuzzyOk e u.2 = false := by
  induction bs generalizing rest with
  | nil => simp [fuzzyFind] at h
  | cons b bs' ih =>
    rw [fuzzyFind] at h
    by_cases hok : fuzzyOk e b.2
    · rw [if_pos hok] at h
      obtain ⟨rfl, rfl⟩ : b = t ∧ bs' = rest := by
        have := Option.some.inj h
        exact ⟨congrArg Prod.fst this, congrArg Prod.snd this⟩
      exact ⟨hok, [], _, rfl, rfl, by simp⟩
    · rw [if_neg hok] at h
      cases hf : fuzzyFind e bs' with
      | none => rw [hf] at h; simp at h
      | some pr =>
        obtain ⟨t', rest'⟩ := pr
        rw [hf] at h
        simp only [Option.some.injEq, Prod.mk.injEq] at h
        obtain ⟨rfl, rfl⟩ := h
        obtain ⟨hok', pre, post, hsplit, hrest, hpre⟩ := ih rest' hf
        refine ⟨hok', b :: pre, post, by simp [hsplit], by simp [hrest], ?_⟩
        intro u hu
        rcases List.mem_cons.mp hu with rfl | hu'
        · exact (Bool.not_eq_true _).mp hok
        · exact hpre u hu'

theorem fuzzyFind_eq_none (e : StmtEntry) (bs : List TaggedTxn)
    (h : fuzzyFind e bs = none) : ∀ u ∈ bs, fuzzyOk e u.2 = false := by
  induction bs with
  | nil => simp
  | cons b bs' ih =>
    rw [fuzzyFind] at h
    by_cases hok : fuzzyOk e b.2
    · rw [if_pos hok] at h; simp at h
    · rw [if_neg hok] at h
      cases hf : fuzzyFind e bs' with
      | none =>
        intro u hu
        rcases List.mem_cons.mp hu with rfl | hu'
        · exact (Bool.not_eq_true _).mp hok
        · exact ih hf u hu'
      | some pr =>
        obtain ⟨t', rest'⟩ := pr
        rw [hf] at h
        simp at h

theorem fuzzyStep_matched_eq (s : ReconState) (e : StmtEntry) (t : TaggedTxn)
    (rest : List TaggedTxn) (h : fuzzyFind e s.books = some (t, rest)) :
    (fuzzyStep s e).matched = s.matched ++
      [⟨t.2, e, if |e.date - t.2.date| = 0 then .AmountDate else .AmountDateTolerant,
        some |e.date - t.2.date|⟩] := by
  unfold fuzzyStep
  rw [h]

theorem mapLookup_insertPush_self (m : BookMap) (k : MatchKey) (t : TaggedTxn) :
    mapLookup (mapInsertPush m k t) k = some ((mapLookup m k).getD [] ++ [t]) := by
  induction m with
  | nil => simp [mapInsertPush, mapLookup]
  | cons kv m' ih =>
    obtain ⟨k', v⟩ := kv
    by_cases h : k' = k
    · subst h; simp [mapInsertPush, mapLookup]
    · simp [mapInsertPush, mapLookup, h, ih]

theorem mapLookup_insertPush_other (m : BookMap) (k K : MatchKey) (t : TaggedTxn)
    (h : k ≠ K) : mapLookup (mapInsertPush m k t) K = mapLookup m K := by
  induction m with
  | nil => simp [mapInsertPush, mapLookup, h]
  | cons kv m' ih =>
    obtain ⟨k', v⟩ := kv
    by_cases h' : k' = k
    · subst h'; simp [mapInsertPush, mapLookup, h]
    · simp [mapInsertPush, mapLookup, h', ih]

theorem mapLookup_mapSet_other (m : BookMap) (k K : MatchKey) (v : List TaggedTxn)
    (h : k ≠ K) : mapLookup (mapSet m k v) K = mapLookup m K := by
  induction m with
  | nil => simp [mapSet, mapLookup]
  | cons kv m' ih =>
    obtain ⟨k', w⟩ := kv
    by_cases h' : k' = k
    · simp [mapSet, mapLookup, h', h]
    · simp [mapSet, mapLookup, h', ih]

theorem foldl_insertPush_lookup_some (l : List TaggedTxn) (m : BookMap) (K : MatchKey)
    (v : List TaggedTxn) (h : mapLookup m K = some v) :
    mapLookup (l.foldl (fun mm t => mapInsertPush mm (createMatchKey t.2) t) m) K =
      some (v ++ l.filter fun t => createMatchKey t.2 = K) := by
  induction l generalizing m v with
  | nil => simp [h]
  | cons t l' ih =>
    simp only [List.foldl_cons, List.filter_cons]
    by_cases hk : createMatchKey t.2 = K
    · have hlk : mapLookup (mapInsertPush m (createMatchKey t.2) t) K = some (v ++ [t]) := by
        rw [hk, mapLookup_insertPush_self, h]; rfl
      rw [ih _ _ hlk]
      simp [hk]
    · have hlk : mapLookup (mapInsertPush m (createMatchKey t.2) t) K = some v := by
        rw [mapLookup_insertPush_other _ _ _ _ hk, h]
      rw [ih _ _ hlk]
      simp [hk]

theorem foldl_insertPush_lookup_none (l : List TaggedTxn) (m : BookMap) (K : MatchKey)
    (h : mapLookup m K = none) :
    mapLookup (l.foldl (fun mm t => mapInsertPush mm (createMatchKey t.2) t) m) K =
      if (l.filter fun t => createMatchKey t.2 = K).isEmpty then none
      else some (l.filter fun t => createMatchKey t.2 = K) := by
  induction l generalizing m with
  | nil => simp [h]
  | cons t l' ih =>
    simp only [List.foldl_cons, List.filter_cons]
    by_cases hk : createMatchKey t.2 = K
    · have hlk : mapLookup (mapInsertPush m (createMatchKey t.2) t) K = some [t] := by
        rw [hk, mapLookup_insertPush_self, h]; rfl
      rw [foldl_insertPush_lookup_some _ _ _ _ hlk]
      simp [hk]
    · have hlk : mapLookup (mapInsertPush m (createMatchKey t.2) t) K = none := by
        rw [mapLookup_insertPush_other _ _ _ _ hk, h]
      rw [ih _ hlk]
      have hd : decide (createMatchKey t.2 = K) = false := by simp [hk]
      rw [hd]
      simp

theorem buildBookMap_lookup (books : List TaggedTxn) (K : MatchKey) :
    mapLookup (buildBookMap books) K =
      if (books.filter fun t => createMatchKey t.2 = K).isEmpty then none
      else some (books.filter fun t => createMatchKey t.2 = K) :=
  foldl_insertPush_lookup_none books [] K rfl

theorem fuzzyStep_bmap_eq (s : ReconState) (e : StmtEntry) :
    (fuzzyStep s e).bmap = s.bmap := by
  unfold fuzzyStep
  cases h : fuzzyFind e s.books with
  | none => rfl
  | some pr => obtain ⟨t, rest⟩ := pr; rfl

theorem mapConsume_eq (m : BookMap) (k : MatchKey) :
    mapConsume m k =
      match mapLookup m k with
      | some (t :: ts) => (some t, mapSet m k ts)
      | _ => (none, m) := rfl

theorem reconStep_bmap_preserve (s : ReconState) (e : StmtEntry) (K : MatchKey)
    (h : e.chequeNumber = "" ∨ (e.chequeNumber, entryAmount e) ≠ K) :
    mapLookup (reconStep s e).bmap K = mapLookup s.bmap K := by
  unfold reconStep
  by_cases hch : e.chequeNumber ≠ ""
  · rw [if_pos hch]
    have hne : (e.chequeNumber, entryAmount e) ≠ K := by
      rcases h with h | h
      · exact absurd h hch
      · exact h
    cases hlk : mapLookup s.bmap (e.chequeNumber, entryAmount e) with
    | none =>
      have hc : mapConsume s.bmap (e.chequeNumber, entryAmount e) = (none, s.bmap) := by
        rw [mapConsume_eq, hlk]
      rw [hc]
      exact congrArg (fun b => mapLookup b K) (fuzzyStep_bmap_eq s e)
    | some v =>
      cases v with
      | nil =>
        have hc : mapConsume s.bmap (e.chequeNumber, entryAmount e) = (none, s.bmap) := by
          rw [mapConsume_eq, hlk]
        rw [hc]
        exact congrArg (fun b => mapLookup b K) (fuzzyStep_bmap_eq s e)
      | cons t ts =>
        have hc : mapConsume s.bmap (e.chequeNumber, entryAmount e) =
            (some t, mapSet s.bmap (e.chequeNumber, entryAmount e) ts) := by
          rw [mapConsume_eq, hlk]
        rw [hc]
        exact mapLookup_mapSet_other _ _ _ _ hne
  · rw [if_neg hch]
    exact congrArg (fun b => mapLookup b K) (fuzzyStep_bmap_eq s e)

theorem fuzzyStep_matched_mono (s : ReconState) (e : StmtEntry) :
    ∃ tail, (fuzzyStep s e).matched = s.matched ++ tail := by
  unfold fuzzyStep
  cases h : fuzzyFind e s.books with
  | none => exact ⟨[], by simp⟩
  | some pr =>
    obtain ⟨t, rest⟩ := pr
    exact ⟨_, rfl⟩

theorem reconStep_matched_mono (s : ReconState) (e : StmtEntry) :
    ∃ tail, (reconStep s e).matched = s.matched ++ tail := by
  unfold reconStep
  by_cases hch : e.chequeNumber ≠ ""
  · rw [if_pos hch]
    rcases hc : mapConsume s.bmap (e.chequeNumber, entryAmount e) with ⟨o, m2⟩
    cases o with
    | none => exact fuzzyStep_matched_mono s e
    | some t => exact ⟨_, rfl⟩
  · rw [if_neg hch]
    exact fuzzyStep_matched_mono s e

theorem reconStep_exact_fire (s : ReconState) (e : StmtEntry) (t : TaggedTxn)
    (ts : List TaggedTxn) (hch : e.chequeNumber ≠ "")
    (hlk : mapLookup s.bmap (e.chequeNumber, entryAmount e) = some (t :: ts)) :
    (reconStep s e).matched = s.matched ++ [⟨t.2, e, .Exact, none⟩] := by
  unfold reconStep
  rw [if_pos hch]
  have hc : mapConsume s.bmap (e.chequeNumber, entryAmount e) =
      (some t, mapSet s.bmap (e.chequeNumber, entryAmount e) ts) := by
    rw [mapConsume_eq, hlk]
  rw [hc]

theorem foldl_reconStep_bmap_preserve (es : List StmtEntry) (s : ReconState) (K : MatchKey)
    (h : ∀ e ∈ es, e.chequeNumber = "" ∨ (e.chequeNumber, entryAmount e) ≠ K) :
    mapLookup (es.foldl reconStep s).bmap K = mapLookup s.bmap K := by
  induction es generalizing s with
  | nil => rfl
  | cons e es' ih =>
    rw [List.foldl_cons, ih _ (fun x hx => h x (List.mem_cons_of_mem _ hx)),
      reconStep_bmap_preserve _ _ _ (h e (List.mem_cons_self _ _))]

theorem foldl_reconStep_matched_mono (es : List StmtEntry) (s : ReconState) :
    ∃ tail, (es.foldl reconStep s).matched = s.matched ++ tail := by
  induction es generalizing s with
  | nil => exact ⟨[], by simp⟩
  | cons e es' ih =>
    rw [List.foldl_cons]
    obtain ⟨t1, h1⟩ := reconStep_matched_mono s e
    obtain ⟨t2, h2⟩ := ih (reconStep s e)
    exact ⟨t1 ++ t2, by rw [h2, h1, List.append_assoc]⟩

theorem exists_first_split {α : Type} [DecidableEq α] {a : α} {l : List α} (h : a ∈ l) :
    ∃ s t, l = s ++ a :: t ∧ a ∉ s := by
  induction l with
  | nil => cases h
  | cons x xs ih =>
    by_cases hx : a = x
    · subst hx; exact ⟨[], xs, rfl, by simp⟩
    · have h' : a ∈ xs := by
        rcases List.mem_cons.mp h with h0 | h0
        · exact absurd h0 hx
        · exact h0
      obtain ⟨s, t, rfl, hns⟩ := ih h'
      exact ⟨x :: s, t, rfl, by simp [hx, hns]⟩

theorem exists_mem_enumFrom {α : Type} {a : α} :
    ∀ (l : List α) (n : Nat), a ∈ l → ∃ i, (i, a) ∈ l.enumFrom n := by
  intro l
  induction l with
  | nil => intro n h; cases h
  | cons x xs ih =>
    intro n h
    rcases List.mem_cons.mp h with rfl | h'
    · exact ⟨n, by simp [List.enumFrom]⟩
    · obtain ⟨i, hi⟩ := ih (n + 1) h'
      exact ⟨i, by simp [List.enumFrom, hi]⟩

theorem snd_mem_of_mem_enumFrom {α : Type} {p : Nat × α} :
    ∀ (l : List α) (n : Nat), p ∈ l.enumFrom n → p.2 ∈ l := by
  intro l
  induction l with
  | nil => intro n h; cases h
  | cons x xs ih =>
    intro n h
    rcases List.mem_cons.mp h with rfl | h'
    · exact List.mem_cons_self _ _
    · exact List.mem_cons_of_mem _ (ih (n + 1) h')

theorem exact_key_pair_matched (books : List BankTxn) (stmts : List StmtEntry)
    (b : BankTxn) (e : StmtEntry) (hb : b ∈ books) (he : e ∈ stmts)
    (hch : b.chequeNumber ≠ "") (hkey : e.chequeNumber = b.chequeNumber)
    (hamt : entryAmount e = txnAmount b)
    (hbu : ∀ b' ∈ books, createMatchKey b' = createMatchKey b → b' = b)
    (heu : ∀ e' ∈ stmts, e'.chequeNumber ≠ "" →
      (e'.chequeNumber, entryAmount e') = createMatchKey b → e' = e) :
    (⟨b, e, .Exact, none⟩ : MatchedPair) ∈ (autoReconcile books stmts).matched := by
  have hmain : (autoReconcile books stmts).matched =
      (stmts.foldl reconStep ⟨[], [], books.enum, buildBookMap books.enum⟩).matched := rfl
  rw [hmain]
  obtain ⟨pre, post, hsplit, hnp⟩ := exists_first_split he
  obtain ⟨i, hib⟩ := exists_mem_enumFrom books 0 hb
  have hibe : (i, b) ∈ books.enum := hib
  have hmemf : (i, b) ∈ books.enum.filter (fun t => createMatchKey t.2 = createMatchKey b) :=
    List.mem_filter.mpr ⟨hibe, by simp⟩
  have hinit : mapLookup (buildBookMap books.enum) (createMatchKey b) =
      some (books.enum.filter fun t => createMatchKey t.2 = createMatchKey b) := by
    rw [buildBookMap_lookup]
    have hne : (books.enum.filter fun t => createMatchKey t.2 = createMatchKey b).isEmpty
        = false := by
      cases h0 : books.enum.filter (fun t => createMatchKey t.2 = createMatchKey b) with
      | nil => rw [h0] at hmemf; cases hmemf
      | cons x xs => rfl
    rw [hne]
    simp
  have hpre : mapLookup ((pre.foldl reconStep
        (⟨[], [], books.enum, buildBookMap books.enum⟩ : ReconState))).bmap (createMatchKey b) =
      some (books.enum.filter fun t => createMatchKey t.2 = createMatchKey b) := by
    rw [foldl_reconStep_bmap_preserve pre _ _ ?_]
    · exact hinit
    · intro e' he'
      by_cases hc : e'.chequeNumber = ""
      · exact Or.inl hc
      · right
        intro hkk
        have he'mem : e' ∈ stmts := by rw [hsplit]; exact List.mem_append_left _ he'
        have : e' = e := heu e' he'mem hc hkk
        exact hnp (this ▸ he')
  obtain ⟨t, ts, hfc⟩ : ∃ t ts,
      books.enum.filter (fun u => createMatchKey u.2 = createMatchKey b) = t :: ts := by
    cases h0 : books.enum.filter (fun u => createMatchKey u.2 = createMatchKey b) with
    | nil => rw [h0] at hmemf; cases hmemf
    | cons x xs => exact ⟨x, xs, rfl⟩
  have htb : t.2 = b := by
    have htf : t ∈ books.enum.filter (fun u => createMatchKey u.2 = createMatchKey b) := by
      rw [hfc]; exact List.mem_cons_self _ _
    have hm := List.mem_filter.mp htf
    exact hbu t.2 (snd_mem_of_mem_enumFrom books 0 hm.1) (by simpa using hm.2)
  have hkpair : (e.chequeNumber, entryAmount e) = createMatchKey b := by
    rw [hkey, hamt]; rfl
  have hlk : mapLookup ((pre.foldl reconStep
        (⟨[], [], books.enum, buildBookMap books.enum⟩ : ReconState))).bmap
        (e.chequeNumber, entryAmount e) = some (t :: ts) := by
    rw [hkpair, hpre, hfc]
  have hefire := reconStep_exact_fire _ e t ts (by rw [hkey]; exact hch) hlk
  rw [htb] at hefire
  rw [hsplit, List.foldl_append, List.foldl_cons]
  obtain ⟨tail, htail⟩ := foldl_reconStep_matched_mono post
    (reconStep (pre.foldl reconStep ⟨[], [], books.enum, buildBookMap books.enum⟩) e)
  rw [htail, hefire]
  simp

/-! ## Claim theorems -/

/-- C1: for every audit run, each per-category score equals
`100 − 20·critical − 10·high − 5·medium − 2·low` clamped to `[0,100]`, and
the overall score equals `100 − 15·critical − 8·high − 3·medium − 1·low`
over the union of all issues, clamped to `[0,100]`. -/
theorem claim_c1_score_formulas (ci gi ti li pi si : List AuditIssue) :
    (assembleReport ci gi ti li pi si).overallScore =
      claimOverallScore (ci ++ gi ++ ti ++ li ++ pi ++ si) ∧
    (assembleReport ci gi ti li pi si).categories.gst.score = claimCategoryScore gi ∧
    (assembleReport ci gi ti li pi si).categories.tds.score = claimCategoryScore ti ∧
    (assembleReport ci gi ti li pi si).categories.ledgerClassification.score =
      claimCategoryScore li ∧
    (assembleReport ci gi ti li pi si).categories.partyMaster.score = claimCategoryScore pi ∧
    (assembleReport ci gi ti li pi si).categories.stockItems.score = claimCategoryScore si ∧
    (assembleReport ci gi ti li pi si).categories.companyInfo.score = claimCategoryScore ci := by
  simp only [assembleReport, calculateCategoryScore, claimOverallScore, claimCategoryScore]
  omega

/-- C2 (code bug): on the book list `[cbBook]` and statement `[cbStmtA, cbStmtB]`
the matcher consumes the single book transaction twice — once in the fuzzy
phase and once in the exact phase through the stale lookup map — so
`totalMatched + totalUnmatchedBooks` is `2` while the book input size is `1`,
violating the claimed conservation identity. -/
theorem claim_c2_conservation_code_bug :
    (autoReconcile [cbBook] [cbStmtA, cbStmtB]).totalMatched = 2 ∧
    (autoReconcile [cbBook] [cbStmtA, cbStmtB]).totalUnmatchedBooks = 0 ∧
    (autoReconcile [cbBook] [cbStmtA, cbStmtB]).totalUnmatchedStatement = 0 ∧
    ([cbBook] : List BankTxn).length = 1 ∧
    (autoReconcile [cbBook] [cbStmtA, cbStmtB]).totalMatched +
      (autoReconcile [cbBook] [cbStmtA, cbStmtB]).totalUnmatchedBooks ≠
        ([cbBook] : List BankTxn).length := by
  refine ⟨by decide, by decide, by decide, by decide, by decide⟩

/-- C3: the fuzzy phase pairs a statement entry with the first still-unmatched
book transaction in scan order satisfying `|amount diff| < 1.00` (strict) and
`|date diff| ≤ 7`, labelling the pair `Amount+Date` when the day difference is
`0` and `Amount (Date Mismatch)` with the day difference otherwise; in the
scenario, the 7-day/0.50 pair matches tolerantly with `daysDifference = 7`
and the 8-day entry stays unmatched. -/
theorem claim_c3_fuzzy_phase :
    (∀ (e : StmtEntry) (bs : List TaggedTxn) (t : TaggedTxn) (rest : List TaggedTxn),
      fuzzyFind e bs = some (t, rest) →
        fuzzyOk e t.2 = true ∧
        ∃ pre post, bs = pre ++ t :: post ∧ rest = pre ++ post ∧
          ∀ u ∈ pre, fuzzyOk e u.2 = false) ∧
    (∀ (e : StmtEntry) (bs : List TaggedTxn), fuzzyFind e bs = none →
      ∀ u ∈ bs, fuzzyOk e u.2 = false) ∧
    (∀ (s : ReconState) (e : StmtEntry) (t : TaggedTxn) (rest : List TaggedTxn),
      fuzzyFind e s.books = some (t, rest) →
        (fuzzyStep s e).matched = s.matched ++
          [⟨t.2, e, if |e.date - t.2.date| = 0 then .AmountDate else .AmountDateTolerant,
            some |e.date - t.2.date|⟩]) ∧
    (autoReconcile [fzBook] [fzStmt7]).matched =
      [⟨fzBook, fzStmt7, .AmountDateTolerant, some 7⟩] ∧
    (autoReconcile [fzBook] [fzStmt8]).matched = [] ∧
    (autoReconcile [fzBook] [fzStmt8]).unmatchedInStatement = [fzStmt8] ∧
    (autoReconcile [fzBook] [fzStmt8]).unmatchedInBooks = [fzBook] := by
  exact ⟨fuzzyFind_eq_some, fuzzyFind_eq_none, fuzzyStep_matched_eq,
    by decide, by decide, by decide, by decide⟩

/-- Witness for C3: the three hypothesised conjuncts applied at the concrete
scenario inputs. -/
theorem claim_c3_fuzzy_phase_witness :
    (fuzzyOk fzStmt7 fzBook = true ∧
      ∃ pre post, ([(0, fzBook)] : List TaggedTxn) = pre ++ (0, fzBook) :: post ∧
        ([] : List TaggedTxn) = pre ++ post ∧ ∀ u ∈ pre, fuzzyOk fzStmt7 u.2 = false) ∧
    (∀ u ∈ ([(0, fzBook)] : List TaggedTxn), fuzzyOk fzStmt8 u.2 = false) ∧
    (fuzzyStep ⟨[], [], [(0, fzBook)], []⟩ fzStmt7).matched =
      [] ++ [⟨fzBook, fzStmt7,
        if |fzStmt7.date - fzBook.date| = 0 then .AmountDate else .AmountDateTolerant,
        some |fzStmt7.date - fzBook.date|⟩] :=
  ⟨claim_c3_fuzzy_phase.1 fzStmt7 [(0, fzBook)] (0, fzBook) [] (by decide),
   claim_c3_fuzzy_phase.2.1 fzStmt8 [(0, fzBook)] (by decide),
   claim_c3_fuzzy_phase.2.2.1 ⟨[], [], [(0, fzBook)], []⟩ fzStmt7 (0, fzBook) [] (by decide)⟩

/-- C4 counterexample: with book `[cbBook]` (cheque `C`, amount 1000) and
statement `[cbStmtA, cbStmtB]`, `cbBook` and `cbStmtB` share an identical
nonempty `(instrumentId, amount)` pair, yet `cbBook` is also routed through
the fuzzy phase (matched non-exactly to `cbStmtA`) — refuting "neither record
is ever routed through the fuzzy phase". -/
theorem claim_c4_counterexample :
    (autoReconcile [cbBook] [cbStmtA, cbStmtB]).matched =
      [⟨cbBook, cbStmtA, .AmountDate, some 0⟩, ⟨cbBook, cbStmtB, .Exact, none⟩] ∧
    cbStmtB.chequeNumber = cbBook.chequeNumber ∧
    entryAmount cbStmtB = txnAmount cbBook ∧
    cbBook.chequeNumber ≠ "" ∧
    (∃ p ∈ (autoReconcile [cbBook] [cbStmtA, cbStmtB]).matched,
      p.book = cbBook ∧ p.matchType ≠ .Exact) := by
  refine ⟨by decide, by decide, by decide, by decide, by decide⟩

/-- C4 (amended): when a book record and an external record are each the
unique carrier of a given nonempty `(instrumentId, amount)` key on their
side, the matcher emits an `Exact` match pairing them, regardless of any
date difference; in the scenario the pair yields exactly one `Exact` match.
(The book record may nonetheless additionally be consumed by the fuzzy phase
for a different external record, as the counterexample shows.) -/
theorem claim_c4_exact_key_amended :
    (∀ (books : List BankTxn) (stmts : List StmtEntry) (b : BankTxn) (e : StmtEntry),
      b ∈ books → e ∈ stmts → b.chequeNumber ≠ "" →
      e.chequeNumber = b.chequeNumber → entryAmount e = txnAmount b →
      (∀ b' ∈ books, createMatchKey b' = createMatchKey b → b' = b) →
      (∀ e' ∈ stmts, e'.chequeNumber ≠ "" →
        (e'.chequeNumber, entryAmount e') = createMatchKey b → e' = e) →
      (⟨b, e, .Exact, none⟩ : MatchedPair) ∈ (autoReconcile books stmts).matched) ∧
    (autoReconcile [chqBook] [chqStmt]).matched = [⟨chqBook, chqStmt, .Exact, none⟩] ∧
    (autoReconcile [chqBook] [chqStmt]).totalMatched = 1 ∧
    (autoReconcile [chqBook] [chqStmt]).totalUnmatchedBooks = 0 ∧
    (autoReconcile [chqBook] [chqStmt]).totalUnmatchedStatement = 0 := by
  refine ⟨?_, by decide, by decide, by decide, by decide⟩
  intro books stmts b e hb he hch hkey hamt hbu heu
  exact exact_key_pair_matched books stmts b e hb he hch hkey hamt hbu heu

/-- Witness for C4: the amended theorem applied to the concrete scenario. -/
theorem claim_c4_exact_key_amended_witness :
    (⟨chqBook, chqStmt, .Exact, none⟩ : MatchedPair) ∈
      (autoReconcile [chqBook] [chqStmt]).matched :=
  claim_c4_exact_key_amended.1 [chqBook] [chqStmt] chqBook chqStmt
    (by decide) (by decide) (by decide) (by decide) (by decide)
    (by decide) (by decide)

/-- C5: the six aging buckets partition the bill records by their age with
inclusive upper boundaries — bucket `k` accumulates exactly the amounts of
the bills whose age falls in bucket `k`, and the bucket totals sum to the
total of the record amounts — for both receivables and payables; a record
aged exactly 60 days falls in the `≤ 60` bucket, and a party with no bill
records has its entire balance placed in Current. -/
theorem claim_c5_aging_partition :
    (∀ (asOf : Int) (l : PartyLedgerRec), l.bills ≠ [] →
      (∀ k : Fin 6, bucketGet (debtorAged asOf l) k =
        ((l.bills.filter fun bl => bucketIdx (agingDaysOf asOf bl) = k).map
          (fun bl => bl.amount)).sum) ∧
      bucketsSum (debtorAged asOf l) = (l.bills.map fun bl => bl.amount).sum) ∧
    (∀ (asOf : Int) (l : PartyLedgerRec), l.bills ≠ [] →
      (∀ k : Fin 6, bucketGet (creditorAged asOf l) k =
        ((l.bills.filter fun bl => bucketIdx (agingDaysOf asOf bl) = k).map
          (fun bl => |bl.amount|)).sum) ∧
      bucketsSum (creditorAged asOf l) = (l.bills.map fun bl => |bl.amount|).sum) ∧
    (∀ (asOf : Int) (l : PartyLedgerRec), l.bills = [] →
      debtorAged asOf l = ⟨l.name, l.closingBalance, 0, 0, 0, 0, 0, l.closingBalance⟩ ∧
      creditorAged asOf l = ⟨l.name, |l.closingBalance|, 0, 0, 0, 0, 0, |l.closingBalance|⟩) ∧
    getDebtorsAging 60 [agedSixtyLedger] = [⟨"Party A", 0, 0, 100000, 0, 0, 0, 100000⟩] ∧
    getDebtorsAging 60 [noBillsLedger] = [⟨"Party B", 250000, 0, 0, 0, 0, 0, 250000⟩] := by
  refine ⟨?_, ?_, ?_, by decide, by decide⟩
  · intro asOf l hne
    have hempty : l.bills.isEmpty = false := by
      cases h : l.bills with
      | nil => exact absurd h hne
      | cons x xs => rfl
    constructor
    · intro k
      simp only [debtorAged, hempty, if_neg Bool.false_ne_true]
      rw [bucketGet_foldl asOf (fun bl => bl.amount), bucketGet_base]
      omega
    · simp only [debtorAged, hempty, if_neg Bool.false_ne_true]
      rw [bucketsSum_foldl asOf (fun bl => bl.amount)]
      simp [bucketsSum]
  · intro asOf l hne
    have hempty : l.bills.isEmpty = false := by
      cases h : l.bills with
      | nil => exact absurd h hne
      | cons x xs => rfl
    constructor
    · intro k
      simp only [creditorAged, hempty, if_neg Bool.false_ne_true]
      rw [bucketGet_foldl asOf (fun bl => |bl.amount|), bucketGet_base]
      omega
    · simp only [creditorAged, hempty, if_neg Bool.false_ne_true]
      rw [bucketsSum_foldl asOf (fun bl => |bl.amount|)]
      simp [bucketsSum]
  · intro asOf l hnil
    constructor <;> simp [debtorAged, creditorAged, hnil]

/-- Witness for C5: the partition conjuncts applied to the concrete
60-day-bill ledger and to a no-bills ledger. -/
theorem claim_c5_aging_partition_witness :
    bucketsSum (debtorAged 60 agedSixtyLedger) =
      (agedSixtyLedger.bills.map fun bl => bl.amount).sum ∧
    bucketsSum (creditorAged 60 ⟨"Party C", -5000, [⟨some 0, -5000⟩]⟩) =
      (([⟨some 0, -5000⟩] : List BillAlloc).map fun bl => |bl.amount|).sum ∧
    debtorAged 60 noBillsLedger =
      ⟨"Party B", 250000, 0, 0, 0, 0, 0, 250000⟩ :=
  ⟨(claim_c5_aging_partition.1 60 agedSixtyLedger (by decide)).2,
   (claim_c5_aging_partition.2.1 60 ⟨"Party C", -5000, [⟨some 0, -5000⟩]⟩ (by decide)).2,
   (claim_c5_aging_partition.2.2.1 60 noBillsLedger rfl).1⟩

/-- C6 (code bug): on a snapshot with the single ledger
`Electricity Bank Charges` under `Direct Expenses`, two misclassification
rules fire (the TS rule loop has no `break`) and the audit emits two issues
carrying the SAME id, violating the claimed per-run uniqueness of issue ids
(the other half of the claim — determinism — holds trivially, the model being
a pure function of the snapshot). -/
theorem claim_c6_duplicate_id_code_bug :
    ((auditLedgerClassification (some [dupIdLedger])).map fun i => i.id) =
      ["LEDGER_MISCLASS_Electricity Bank Charges",
       "LEDGER_MISCLASS_Electricity Bank Charges"] ∧
    ¬ ((auditLedgerClassification (some [dupIdLedger])).map fun i => i.id).Nodup := by
  refine ⟨by decide, by decide⟩

/-- C7 counterexample: on the scenario snapshot (ledgers exactly
`["Output CGST"]` under `Duties & Taxes`, complete company profile, no stock
items) the full audit emits five Critical issues, not the claimed two: the
audit also requires the three Input GST ledgers. -/
theorem claim_c7_counterexample :
    ((gstScenarioReport.issues.filter fun i => i.severity = .Critical).map fun i => i.id) =
      ["GST_OUTPUT_IGST_MISSING", "GST_OUTPUT_SGST_MISSING", "GST_INPUT_IGST_MISSING",
       "GST_INPUT_CGST_MISSING", "GST_INPUT_SGST_MISSING"] ∧
    (gstScenarioReport.issues.filter fun i => i.severity = .Critical).length ≠ 2 := by
  refine ⟨by decide, by decide⟩

/-- C7 (amended): on the scenario snapshot the full audit emits exactly five
Critical issues — `GST_OUTPUT_IGST_MISSING`, `GST_OUTPUT_SGST_MISSING` and
the three `GST_INPUT_*_MISSING` ids — all auto-fixable. -/
theorem claim_c7_gst_presence_amended :
    ((gstScenarioReport.issues.filter fun i => i.severity = .Critical).map fun i => i.id) =
      ["GST_OUTPUT_IGST_MISSING", "GST_OUTPUT_SGST_MISSING", "GST_INPUT_IGST_MISSING",
       "GST_INPUT_CGST_MISSING", "GST_INPUT_SGST_MISSING"] ∧
    (∀ i ∈ gstScenarioReport.issues.filter fun i => i.severity = .Critical,
      i.autoFixable = true) ∧
    gstScenarioReport.criticalIssues = 5 := by
  refine ⟨by decide, by decide, by decide⟩

/-- C8 counterexample: the names `AB` and `A B C` have normalized forms `ab`
and `abc`; one is a substring of the other and they are distinct, so the
claim as stated flags them — but the source's `isSimilarName` rejects the
pair because the substring branch also requires both lengths above 3. -/
theorem claim_c8_counterexample :
    isSimilarName (normalizeName "AB") (normalizeName "A B C") = false ∧
    claimDuplicateRule (normalizeName "AB") (normalizeName "A B C") := by
  constructor
  · decide
  · exact ⟨by decide, Or.inl ⟨[], ['c'], by decide⟩⟩

/-- C8 (amended): a pair of normalized subject names is flagged exactly when
the forms are distinct and either one is a substring of the other with both
longer than 3 characters, or — neither being a substring of the other — the
edit-distance similarity exceeds 0.8 with the longer form longer than 5
characters; duplicate-group issues are never auto-fixable. -/
theorem claim_c8_duplicate_rule_amended :
    (∀ a b : String,
      isSimilarName (normalizeName a) (normalizeName b) = true ↔
        amendedDuplicateRule (normalizeName a) (normalizeName b)) ∧
    (∀ g : List String, (dupIssueOf g).autoFixable = false) :=
  ⟨fun a b => isSimilarName_iff_amended (normalizeName a) (normalizeName b),
   fun _ => rfl⟩

/-- C9: the name-similarity predicate is total and deterministic (it is a Lean
function), symmetric, and irreflexive. -/
theorem claim_c9_similarity_symmetry :
    (∀ a b : String, isSimilarName a b = isSimilarName b a) ∧
    (∀ a : String, isSimilarName a a = false) :=
  ⟨isSimilarName_comm, isSimilarName_self⟩

/-- C10 counterexample: when the GST data fetch fails the category is
reported with the very same `CategoryAudit` value (score 100, status `Good`,
zero issues, "looks good" summary) as a genuinely clean GST configuration —
there is no diagnostic flag distinguishing the two, refuting the claim. -/
theorem claim_c10_counterexample :
    (runFullAudit none none none none none none).categories.gst =
      (runFullAudit none (some cleanGstLedgers) none none none none).categories.gst ∧
    auditGSTConfiguration none = [] ∧
    auditGSTConfiguration (some cleanGstLedgers) = [] := by
  refine ⟨by decide, by decide, by decide⟩

/-- C10 (amended): a failed category fetch does not abort the audit — all
other categories are still evaluated and aggregated — and the failed category
is returned with zero issues, but with NO diagnostic flag: it is scored and
summarised exactly like a clean category. -/
theorem claim_c10_degradation_amended (c : Option CompanyRec)
    (t l p : Option (List LedgerRec)) (s : Option (List StockItemRec)) :
    (runFullAudit c none t l p s).categories.gst =
      ⟨100, "Good", 0, "GST configuration looks good!"⟩ ∧
    (runFullAudit c none t l p s).issues =
      auditCompanyInfo c ++ auditTDSConfiguration t ++ auditLedgerClassification l ++
        auditPartyMasters p ++ auditStockItems s := by
  constructor
  · rfl
  · simp [runFullAudit, assembleReport, auditGSTConfiguration]
